import Mathlib

/-!
# Verification of `count_code_lines` (engdan77/count_code_lines)

A shallow embedding of `src/count_code_lines/app.py` (the authoritative,
current implementation; `count_my_code.py` is an earlier copy of the same
functions).  Python dictionaries are modelled as association lists in
insertion order (Python dicts preserve insertion order and have unique
keys); Python exceptions are modelled with `Except`; the external
collaborators (filesystem, GitHub listing API, pygount, git) are modelled
as an explicit environment of functions supplied to the embedded code.
-/

namespace CountCodeLines

/-- A value stored in the nested summary dictionary for one repository.
In the Python code this is the dict `summary` produced by
`get_repo_summary_file`: either the parsed pygount summary (from which the
rest of the program reads only the keys `totalCodeCount` and the added
`year`) or the empty dict `{}` stored when `json.loads` raised
`JSONDecodeError`.  A missing key is `none`; reading a missing key raises
`KeyError`, modelled as `Except.error`. -/
structure Rec where
  year : Option Int
  totalCodeCount : Option Nat
deriving DecidableEq, Repr

/-- The empty dict `{}` stored by `get_repo_summary_file` on a
`JSONDecodeError` from the line-counting engine's output. -/
def emptyRec : Rec := ⟨none, none⟩

/-- One source entry of the summary: `source_label -> (repo_name -> Rec)`,
both dictionaries in insertion order. -/
abbrev Summary := List (String × List (String × Rec))

/-- Reading `data["year"]` — raises `KeyError` (modelled `Except.error ()`) when the
record is the empty dict. -/
def recYear (r : Rec) : Except Unit Int :=
  match r.year with
  | some y => .ok y
  | none => .error ()

/-- Reading `data["totalCodeCount"]` — raises `KeyError` when missing. -/
def recTotal (r : Rec) : Except Unit Nat :=
  match r.totalCodeCount with
  | some t => .ok t
  | none => .error ()

/-- The years of one source's repositories, in dictionary order; errors at
the first record without a `year` key (the `all_years.add(data["year"])`
loop of `get_code_per_year_source`). -/
def yearsOfRepos : List (String × Rec) → Except Unit (List Int)
  | [] => .ok []
  | pr :: rest => do
      let y ← recYear pr.2
      let ys ← yearsOfRepos rest
      pure (y :: ys)

/-- All years of the whole summary in traversal order (before the set
semantics are applied). -/
def allYearsAux : Summary → Except Unit (List Int)
  | [] => .ok []
  | pr :: rest => do
      let ys ← yearsOfRepos pr.2
      let more ← allYearsAux rest
      pure (ys ++ more)

/-- The Python set `all_years` of `get_code_per_year_source`, modelled as
the traversal list with duplicates removed (first occurrence kept).  No
theorem below depends on the iteration order of the Python set, only on its
members. -/
def allYears (s : Summary) : Except Unit (List Int) := do
  let ys ← allYearsAux s
  pure ys.dedup

/-- Updating `c[year] += count` on a `collections.Counter`, modelled on an
association list in insertion order: update the existing entry in place, or
append a fresh entry at the end. -/
def counterAdd (c : List (Int × Nat)) (y : Int) (n : Nat) : List (Int × Nat) :=
  match c with
  | [] => [(y, n)]
  | (y0, n0) :: rest =>
      if y0 = y then (y0, n0 + n) :: rest else (y0, n0) :: counterAdd rest y n

/-- The `c = collections.Counter(); for repo, data in repos.items():
c[data["year"]] += data["totalCodeCount"]` loop of
`get_code_per_year_source`; errors on the first record missing a key. -/
def sourceCounterAux : List (String × Rec) → List (Int × Nat) → Except Unit (List (Int × Nat))
  | [], c => .ok c
  | pr :: rest, c => do
      let y ← recYear pr.2
      let t ← recTotal pr.2
      sourceCounterAux rest (counterAdd c y t)

/-- The `for year, count in c.items(): source_lines_per_year[source].append(count)`
part: one `(source, counts)` pair per source, counts in `Counter`
(insertion) order. -/
def seriesAux : Summary → Except Unit (List (String × List Nat))
  | [] => .ok []
  | pr :: rest => do
      let c ← sourceCounterAux pr.2 []
      let more ← seriesAux rest
      pure ((pr.1, c.map Prod.snd) :: more)

/-- Embedding of `get_code_per_year_source(summary)`: the pivot/aggregator.  Returns the
set of all years and, per source, the list of per-year line totals in the
order the years were first encountered in that source's repository dict. -/
def get_code_per_year_source (s : Summary) :
    Except Unit (List Int × List (String × List Nat)) := do
  let ys ← allYears s
  let series ← seriesAux s
  pure (ys, series)

/-- All records of the summary in traversal order (the nested
`for source, repos in summaries.items(): for repo_name, repo_data in
repos.items()` loops). -/
def flatRecs (s : Summary) : List Rec :=
  (s.map (fun pr => pr.2.map Prod.snd)).flatten

/-- Reads `(repo_data["year"], repo_data["totalCodeCount"])` off every
record in order, erroring at the first missing key (the accumulation loop
of `get_summary_of_all`). -/
def recsData : List Rec → Except Unit (List (Int × Nat))
  | [] => .ok []
  | r :: rest => do
      let y ← recYear r
      let t ← recTotal r
      let tail ← recsData rest
      pure ((y, t) :: tail)

/-- The result dict of `get_summary_of_all`. -/
structure Totals where
  total_lines : Nat
  repo_count : Nat
  across_years : Int
deriving DecidableEq, Repr

/-- Embedding of `get_summary_of_all(summaries)`: sums `totalCodeCount` over every
record, counts the records, and computes `max(years) - min(years)` over the
set of years (`max`/`min` of the empty set raises, modelled as an error;
a missing dict key also raises). -/
def get_summary_of_all (s : Summary) : Except Unit Totals := do
  let data ← recsData (flatRecs s)
  let years := (data.map Prod.fst).dedup
  match years.max?, years.min? with
  | some mx, some mn =>
      pure ⟨(data.map Prod.snd).sum, data.length, mx - mn⟩
  | _, _ => .error ()

/-! ## Presenters -/

/-- Python `str.split(sep)` for a one-character separator, on the
character list: `"a/b" ↦ [[a],[b]]`, `"" ↦ [[]]`, `"a//b" ↦ [[a],[],[b]]`.
Always returns a non-empty list, like Python's `split`. -/
def splitChars (sep : Char) : List Char → List (List Char)
  | [] => [[]]
  | c :: rest =>
      match splitChars sep rest with
      | [] => [[]]
      | s :: ss => if c = sep then [] :: s :: ss else (c :: s) :: ss

/-- Python `str.split(sep)` for a one-character separator. -/
def pySplit (s : String) (sep : Char) : List String :=
  (splitChars sep s.toList).map String.mk

/-- Python `source.split('/').pop()` — the trailing path segment of a source
label (Python `split` always yields a non-empty list, `pop()` takes its
last element). -/
def lastSegment (s : String) : String := ((pySplit s '/').getLast?).getD ""

/-- Python `json.dumps` of a list of ints: `[a, b, c]` with `", "` separators. -/
def jsonDumpInts (l : List Int) : String :=
  "[" ++ String.intercalate ", " (l.map toString) ++ "]"

/-- Python `json.dumps` of a list of non-negative ints. -/
def jsonDumpNats (l : List Nat) : String :=
  "[" ++ String.intercalate ", " (l.map toString) ++ "]"

/-- Embedding of `code_per_year_to_mermaid_chart(all_years, per_source, title, x_axis_title)`:
the f-string prefix (fence, `xychart-beta`, title line, x-axis line), then
one `bar` line per source joined with newlines, then the closing fence. -/
def code_per_year_to_mermaid_chart (all_years : List Int)
    (per_source : List (String × List Nat)) (title x_axis_title : String) : String :=
  let head := "\n```mermaid\nxychart-beta\n      title \"" ++ title ++
    "\"\n      x-axis \"" ++ x_axis_title ++ "\" " ++ jsonDumpInts all_years ++ "\n"
  let data_lines := per_source.map
    (fun pr => "      bar \"" ++ lastSegment pr.1 ++ "\" " ++ jsonDumpNats pr.2)
  head ++ String.intercalate "\n" data_lines ++ "\n```"

/-- UTF-8 encoding of one character (`str.encode('utf-8')`, per char). -/
def utf8Bytes (c : Char) : List Nat :=
  let n := c.toNat
  if n < 0x80 then [n]
  else if n < 0x800 then [0xC0 ||| (n >>> 6), 0x80 ||| (n &&& 0x3F)]
  else if n < 0x10000 then
    [0xE0 ||| (n >>> 12), 0x80 ||| ((n >>> 6) &&& 0x3F), 0x80 ||| (n &&& 0x3F)]
  else
    [0xF0 ||| (n >>> 18), 0x80 ||| ((n >>> 12) &&& 0x3F),
     0x80 ||| ((n >>> 6) &&& 0x3F), 0x80 ||| (n &&& 0x3F)]

/-- The standard base64 alphabet. -/
def b64Alphabet : List Char :=
  "ABCDEFGHIJKLMNOPQRSTUVWXYZabcdefghijklmnopqrstuvwxyz0123456789+/".toList

/-- Character for one 6-bit group. -/
def b64Char (n : Nat) : Char := b64Alphabet.getD n 'A'

/-- Standard base64 of a byte list, processed in 3-byte chunks with `=`
padding (`base64.b64encode`). -/
def b64Chunks : List Nat → String
  | [] => ""
  | [a] => String.mk [b64Char (a >>> 2), b64Char ((a &&& 3) <<< 4)] ++ "=="
  | [a, b] =>
      String.mk [b64Char (a >>> 2), b64Char (((a &&& 3) <<< 4) ||| (b >>> 4)),
                 b64Char ((b &&& 15) <<< 2)] ++ "="
  | a :: b :: c :: rest =>
      String.mk [b64Char (a >>> 2), b64Char (((a &&& 3) <<< 4) ||| (b >>> 4)),
                 b64Char (((b &&& 15) <<< 2) ||| (c >>> 6)), b64Char (c &&& 63)] ++
      b64Chunks rest

/-- Python `base64.b64encode(s.encode('utf-8')).decode('utf-8')`. -/
def b64encode (s : String) : String :=
  b64Chunks ((s.toList.map utf8Bytes).flatten)

/-- Python `sorted(summaries[source].items(), key=lambda x: x[1]["year"])`:
Python's `sorted` first extracts the key of every element (raising
`KeyError` if any record lacks `year`), then performs a stable ascending
sort, modelled by `List.insertionSort`. -/
def sortReposByYear (repos : List (String × Rec)) :
    Except Unit (List (String × Rec)) :=
  if repos.all (fun pr => pr.2.year.isSome) then
    .ok (List.insertionSort
      (fun a b => a.2.year.getD 0 ≤ b.2.year.getD 0) repos)
  else .error ()

/-- One row `{"repo_name": .., "year": .., "lines_of_code": ..}` of the
markdown/JSON presenters. -/
structure Row where
  repo_name : String
  year : Int
  lines_of_code : Nat
deriving DecidableEq, Repr

/-- The `table_data.append({...})` / `repos_result.append({...})` loops:
read `year` and `totalCodeCount` of every (already sorted) record, raising
`KeyError` on a missing key. -/
def rowsOfSorted : List (String × Rec) → Except Unit (List Row)
  | [] => .ok []
  | pr :: rest => do
      let y ← recYear pr.2
      let t ← recTotal pr.2
      let more ← rowsOfSorted rest
      pure (Row.mk pr.1 y t :: more)

/-- A JSON value of the `output_as_json` result dict: either a list of row
records or a string (the base64 chart). -/
inductive JVal
  | rows (rs : List Row)
  | str (s : String)
deriving DecidableEq, Repr

/-- Assignment `d[k] = v` on a Python dict in insertion order: overwrite in place if
the key exists, else append. -/
def jdictInsert (d : List (String × JVal)) (k : String) (v : JVal) :
    List (String × JVal) :=
  match d with
  | [] => [(k, v)]
  | (k0, v0) :: rest =>
      if k0 = k then (k0, v) :: rest else (k0, v0) :: jdictInsert rest k v

/-- The per-source loop of `output_as_json`: sort each source's repos by
year, build the row list, store it under the source's trailing path
segment. -/
def jsonBody : Summary → List (String × JVal) → Except Unit (List (String × JVal))
  | [], acc => .ok acc
  | pr :: rest, acc => do
      let sorted ← sortReposByYear pr.2
      let rows ← rowsOfSorted sorted
      jsonBody rest (jdictInsert acc (lastSegment pr.1) (JVal.rows rows))

/-- Embedding of `output_as_json(summaries)`: the per-source row lists plus the
`b64_mermaid_chart` key holding the base64-encoded mermaid chart. -/
def output_as_json (summaries : Summary) : Except Unit (List (String × JVal)) := do
  let base ← jsonBody summaries []
  let res ← get_code_per_year_source summaries
  let chart := code_per_year_to_mermaid_chart res.1 res.2 "Line of codes per year" "Year"
  pure (jdictInsert base "b64_mermaid_chart" (JVal.str (b64encode chart)))

/-- The per-source loop of `output_as_markdown`; `render` stands for the
external `markdown_table(table_data).get_markdown()` collaborator. -/
def markdownBody (render : List Row → String) :
    Summary → String → Except Unit String
  | [], acc => .ok acc
  | pr :: rest, acc => do
      let sorted ← sortReposByYear pr.2
      let rows ← rowsOfSorted sorted
      markdownBody render rest
        (acc ++ "\n\n### " ++ lastSegment pr.1 ++ "\n\n" ++ "\n\n" ++ render rows)

/-- Embedding of `output_as_markdown(summaries)` (the `.replace("\n\n\n", "\n\n")` is
applied to the literal `"\n\n## Summary\n\n"`, which contains no triple
newline, so it is the identity there). -/
def output_as_markdown (render : List Row → String) (summaries : Summary) :
    Except Unit String := do
  let body ← markdownBody render summaries ""
  let res ← get_code_per_year_source summaries
  pure (body ++ "\n\n## Summary\n\n" ++
    code_per_year_to_mermaid_chart res.1 res.2 "Line of codes per year" "Year")

/-! ## Source Resolver, Year Resolver, Summary Builder -/

/-- One raw entry of the GitHub listing API response
(`requests.get(f"https://api.github.com/users/.../repos").json()`), keeping
the three fields the code reads. -/
structure GhEntry where
  name : String
  html_url : String
  created_at : String
deriving DecidableEq, Repr

/-- The `Repository = namedtuple("repo", "name url year")` of the code;
`year` is the leading `YYYY` component of `created_at`, kept as a string. -/
structure Repository where
  name : String
  url : String
  year : String
deriving DecidableEq, Repr

/-- A `pathlib.Path`, modelled by its non-empty components (pathlib
normalizes away empty components and trailing separators). -/
abbrev PyPath := List String

/-- Python `pathlib.Path(s)` on a relative-style path string. -/
def mkPath (s : String) : PyPath := (pySplit s '/').filter (fun c => c ≠ "")

/-- Python `Path.as_posix()` / `str(Path)`. -/
def pathPosix (p : PyPath) : String := String.intercalate "/" p

/-- Python `Path.name`: the final component. -/
def pathName (p : PyPath) : String := p.getLast?.getD ""

/-- Python `str.strip('"\'')`: drop quote characters from both ends. -/
def stripQuotes (s : String) : String :=
  let cs := ['"', '\'']
  String.mk (((s.toList.dropWhile (· ∈ cs)).reverse.dropWhile (· ∈ cs)).reverse)

/-- Python `str.removesuffix(suf)`: drop one trailing copy of `suf` if present. -/
def removesuffix (s suf : String) : String :=
  if suf ≠ "" ∧ suf.toList.isSuffixOf s.toList then
    String.mk (s.toList.take (s.toList.length - suf.toList.length))
  else s

/-- A `process_source` of `get_summaries`: either a `pathlib.Path` (local
repository directory) or a `Repository` namedtuple (remote unit). -/
inductive ProcSource
  | path (p : PyPath)
  | repo (r : Repository)
deriving DecidableEq, Repr

/-- Python `process_source.name`: `Path.name` for a path, the namedtuple's `name`
field for a repository. -/
def procName : ProcSource → String
  | .path p => pathName p
  | .repo r => r.name

/-- The string identifying a unit's location: `repo_folder.as_posix()` for
a `Path`, `repo_folder.url` for a `Repository` (this is both what is passed
to pygount and what the git reader opens or clones). -/
def locOf : ProcSource → String
  | .path p => pathPosix p
  | .repo r => r.url

/-- Failures raised by the git collaborator and not caught anywhere in the
code: `InvalidGitRepositoryError`/`NoSuchPathError` from `Repo(path)`,
`GitCommandError` from `Repo.clone_from`, `StopIteration` from `next` on an
empty commit iterator. -/
inductive GitErr
  | invalidRepo
  | cloneFailed
  | noCommits
deriving DecidableEq, Repr

/-- The external world of the program. -/
structure Env where
  /-- Python `Path.is_dir()`. -/
  isDir : PyPath → Bool
  /-- Directory listing: entry names at the top level of a directory paired
  with whether each entry is itself a directory (`Path.glob("*/")` yields,
  in Python ≥ 3.11, exactly the entries that are directories). -/
  entries : PyPath → List (String × Bool)
  /-- The GitHub listing API response for a user. -/
  github : String → List GhEntry
  /-- The pygount run plus `json.loads(...)["summary"]` on its output file,
  keyed by the location string passed to pygount: `some totalCodeCount` on
  a parseable summary, `none` when the output is unusable and `json.loads`
  raises `JSONDecodeError`. -/
  countJson : String → Option Nat
  /-- The git history of a location (local path opened in place, clone URL
  cloned into a temp dir): the commit timestamps in chronological order,
  oldest first, or the git error raised. -/
  gitHistory : String → Except GitErr (List Int)
  /-- Python `datetime.datetime.fromtimestamp(ts).year` (local time). -/
  yearOfTs : Int → Int

/-- Embedding of `get_repo_create_year(source)`: open or clone the repository, then
`next(r.iter_commits())` — GitPython's `iter_commits` yields commits
starting from `HEAD` in reverse chronological order (like `git log`), so
`next` returns the NEWEST commit; `StopIteration` on an empty history is
not caught.  Returns `datetime.fromtimestamp(commit.committed_date).year`. -/
def get_repo_create_year (env : Env) (source : ProcSource) : Except GitErr Int := do
  let hist ← env.gitHistory (locOf source)
  match hist.reverse.head? with
  | none => .error .noCommits
  | some ts => pure (env.yearOfTs ts)

/-- Embedding of `get_repo_summary_file(tmp_file, repo_folder)`: run pygount, parse its
JSON output, then stamp the resolved year.  Only `JSONDecodeError` is
caught (warning + empty dict `{}`); any error raised by
`get_repo_create_year` propagates. -/
def get_repo_summary_file (env : Env) (source : ProcSource) : Except GitErr Rec :=
  match env.countJson (locOf source) with
  | none => .ok emptyRec
  | some total =>
      match get_repo_create_year env source with
      | .error e => .error e
      | .ok y => .ok ⟨some y, some total⟩

/-- The repository list built from the GitHub listing, in listing order:
`Repository(r["name"], f"{r['html_url']}.git", r["created_at"].split("-").pop(0))`. -/
def rawGithubRepos (env : Env) (user : String) : List Repository :=
  (env.github user).map (fun r =>
    Repository.mk r.name (r.html_url ++ ".git") ((pySplit r.created_at '-').headD ""))

/-- Embedding of `get_all_github_repos(user)`: the listing-derived repositories sorted
by `sorted(repos, key=lambda x: x.year)` — a stable ascending sort on the
year-hint string, modelled by insertion sort (the canonical stable sort). -/
def get_all_github_repos (env : Env) (user : String) : List Repository :=
  List.insertionSort (fun a b => a.year ≤ b.year) (rawGithubRepos env user)

/-- Python `repo_item.glob("*/")`: the immediate subdirectories of a directory, as
paths (non-directory entries do not match a pattern ending in a path
separator). -/
def pyGlobDirs (env : Env) (p : PyPath) : List ProcSource :=
  ((env.entries p).filter (fun e => e.2)).map (fun e => ProcSource.path (p ++ [e.1]))

/-- The unit-resolution step of `get_summaries` for one input string:
`repo_item = Path(source.strip("\"'"))`; an existing directory yields its
subdirectories (or itself, depending on the flag), anything else is
treated as a GitHub account name. -/
def resolveUnits (env : Env) (source : String) (parse_sub_folders_as_repos : Bool) :
    List ProcSource :=
  let repo_item := mkPath (stripQuotes source)
  if env.isDir repo_item then
    if parse_sub_folders_as_repos then pyGlobDirs env repo_item
    else [ProcSource.path repo_item]
  else
    (get_all_github_repos env (pathPosix repo_item)).map ProcSource.repo

/-- Assignment `summarization[key][name] = summary` on the inner dict. -/
def insertRepo (repos : List (String × Rec)) (name : String) (r : Rec) :
    List (String × Rec) :=
  match repos with
  | [] => [(name, r)]
  | (n, r0) :: rest =>
      if n = name then (n, r) :: rest else (n, r0) :: insertRepo rest name r

/-- Assignment `summarization[key][name] = summary` on the outer `defaultdict(dict)`. -/
def insertRec (s : Summary) (key name : String) (r : Rec) : Summary :=
  match s with
  | [] => [(key, [(name, r)])]
  | (k, repos) :: rest =>
      if k = key then (k, insertRepo repos name r) :: rest
      else (k, repos) :: insertRec rest key name r

/-- The inner `for process_source in process_sources:` loop of
`get_summaries`: collect each unit and store it under the key
`source.removesuffix("/")` and the unit's name.  Uncaught git errors
propagate and abort the whole run. -/
def processUnits (env : Env) (source : String) :
    List ProcSource → Summary → Except GitErr Summary
  | [], acc => .ok acc
  | ps :: rest, acc => do
      let summ ← get_repo_summary_file env ps
      processUnits env source rest
        (insertRec acc (removesuffix source "/") (procName ps) summ)

/-- The outer `for source in sources:` loop of `get_summaries`. -/
def summariesGo (env : Env) (flag : Bool) :
    List String → Summary → Except GitErr Summary
  | [], acc => .ok acc
  | source :: rest, acc => do
      let acc2 ← processUnits env source (resolveUnits env source flag) acc
      summariesGo env flag rest acc2

/-- Embedding of `get_summaries(sources, parse_sub_folders_as_repos)`. -/
def get_summaries (env : Env) (sources : List String)
    (parse_sub_folders_as_repos : Bool) : Except GitErr Summary :=
  summariesGo env parse_sub_folders_as_repos sources []

/-- The civil calendar year of a Unix timestamp (UTC; the program uses
`datetime.fromtimestamp`, i.e. the machine's local timezone — modelled
here with the UTC offset).  Standard days-to-civil conversion. -/
def epochYear (ts : Int) : Int :=
  let z := Int.fdiv ts 86400 + 719468
  let era := Int.fdiv z 146097
  let doe := z - era * 146097
  let yoe := Int.fdiv (doe - Int.fdiv doe 1460 + Int.fdiv doe 36524 - Int.fdiv doe 146096) 365
  let y := yoe + era * 400
  let doy := doe - (365 * yoe + Int.fdiv yoe 4 - Int.fdiv yoe 100)
  let mp := Int.fdiv (5 * doy + 2) 153
  let m := mp + (if mp < 10 then 3 else -9)
  y + (if m ≤ 2 then 1 else 0)

/-! ## Spec-side definitions (written from the spec's words, for
refinement comparisons against the embedded code) -/

/-- Modelled from the spec: the Year Resolver as specified — "read the
chronologically first commit in the history (the very first commit ever
made …) and return the calendar year of its commit timestamp". -/
def spec_repo_create_year (env : Env) (source : ProcSource) : Except GitErr Int := do
  let hist ← env.gitHistory (locOf source)
  match hist.head? with
  | none => .error .noCommits
  | some ts => pure (env.yearOfTs ts)

/-- The `(year, totalCodeCount)` pairs of a record list, keeping only
records that have both keys. -/
def dataOf (l : List Rec) : List (Int × Nat) :=
  l.filterMap (fun r => r.year.bind (fun y => r.totalCodeCount.map (fun t => (y, t))))

/-- The `(year, totalCodeCount)` pairs of one source's repository dict in
dictionary order. -/
def pairsOf (repos : List (String × Rec)) : List (Int × Nat) :=
  dataOf (repos.map Prod.snd)

/-- The per-source `Counter` of `get_code_per_year_source`, as a pure
function of the `(year, total)` pairs. -/
def counterOf (l : List (Int × Nat)) : List (Int × Nat) :=
  l.foldl (fun c p => counterAdd c p.1 p.2) []

/-- The distinct elements of a list in order of first appearance. -/
def keysInOrder (ys : List Int) : List Int :=
  ys.foldl (fun ks y => if y ∈ ks then ks else ks ++ [y]) []

/-- Modelled from the spec: the per-source series as C4 states it — one
entry per year present for the source, the sum of `totalCodeCount` over the
source's repositories sharing that year, in ascending year order. -/
def ascendingSeriesOf (repos : List (String × Rec)) : List Nat :=
  (List.insertionSort (fun a b => a ≤ b) ((pairsOf repos).map Prod.fst).dedup).map
    (fun y => (((pairsOf repos).filter (fun z => z.1 = y)).map Prod.snd).sum)

/-- The resolved years of every record of the summary, in traversal order. -/
def yearsOfSummary (s : Summary) : List Int :=
  (flatRecs s).filterMap Rec.year

/-- The `totalCodeCount` values of every record of the summary. -/
def linesOfSummary (s : Summary) : List Nat :=
  (flatRecs s).filterMap Rec.totalCodeCount

/-- The mermaid chart produced for a summary of a single source with a
single repository (the shape of Scenario D). -/
def chartOfSingle (src : String) (y : Int) (t : Nat) : String :=
  code_per_year_to_mermaid_chart [y] [(src, [t])] "Line of codes per year" "Year"

/-! ## Concrete environments for witnesses and counterexamples -/

/-- A world with one local directory `r` whose pygount run produces
unusable output (`JSONDecodeError`). -/
def envCountFail : Env :=
  ⟨fun p => p == ["d"], fun _ => [], fun _ => [], fun _ => none,
   fun _ => Except.error GitErr.invalidRepo, epochYear⟩

/-- A world with one local directory `x` whose pygount output parses fine
but whose git history cannot be read. -/
def envGitFail : Env :=
  ⟨fun p => p == ["x"], fun _ => [], fun _ => [], fun _ => some 7,
   fun _ => Except.error GitErr.invalidRepo, epochYear⟩

/-- A world with one local directory `r` that is a git repository whose
single commit is at the Unix epoch; counting succeeds with 7 lines. -/
def envQuote : Env :=
  ⟨fun p => p == ["r"], fun _ => [], fun _ => [], fun _ => some 7,
   fun _ => Except.ok [0], epochYear⟩

/-- A world whose git history under location `r` has an initial commit at
the Unix epoch (year 1970) and a later `HEAD` commit at 2020-01-01
(timestamp 1577836800). -/
def envTwoCommits : Env :=
  ⟨fun p => p == ["r"], fun _ => [], fun _ => [], fun _ => some 7,
   fun _ => Except.ok [0, 1577836800], epochYear⟩

/-- A world with a directory `root` containing two subdirectories and one
plain file. -/
def envSubdirs : Env :=
  ⟨fun p => p == ["root"],
   fun _ => [("sub1", true), ("file.txt", false), ("sub2", true)],
   fun _ => [], fun _ => none, fun _ => Except.error GitErr.invalidRepo, epochYear⟩

/-! ## General helper lemmas -/

theorem exc_bind_ok {α β ε : Type} (v : α) (f : α → Except ε β) :
    (Except.ok v >>= f) = f v := rfl

theorem exc_bind_error {α β ε : Type} (e : ε) (f : α → Except ε β) :
    (Except.error e >>= f) = Except.error e := rfl

theorem exc_pure {α ε : Type} (v : α) : (pure v : Except ε α) = Except.ok v := rfl

/-! ## C1 — Year Resolver -/

/-- Helper: whatever the environment, `get_repo_create_year` returns the
year of the LAST (newest) commit of the history, because GitPython's
`iter_commits` yields commits newest-first and the code takes `next(...)`. -/
theorem get_repo_create_year_eq_newest (env : Env) (source : ProcSource)
    (hist : List Int) (ts : Int)
    (hh : env.gitHistory (locOf source) = .ok (hist ++ [ts])) :
    get_repo_create_year env source = .ok (env.yearOfTs ts) := by
  simp [get_repo_create_year, hh, exc_bind_ok, exc_pure]

/-- C1: the claim says `get_repo_create_year` returns the calendar year of
the chronologically FIRST commit.  The code takes `next(r.iter_commits())`,
and `iter_commits` yields commits newest-first, so the code returns the
year of the NEWEST commit instead: on a history with an initial commit at
the Unix epoch (year 1970) and a `HEAD` commit at timestamp 1577836800
(2020-01-01), the code returns 2020 while the specified behaviour (the
spec-modelled `spec_repo_create_year`) returns 1970.  The code contradicts
its own naming (`get_repo_create_year`, `first_commit`): a code bug. -/
theorem yearResolver_returns_newest_commit_year_bug :
    get_repo_create_year envTwoCommits (ProcSource.path ["r"]) = .ok 2020
    ∧ spec_repo_create_year envTwoCommits (ProcSource.path ["r"]) = .ok 1970
    ∧ (2020 : Int) ≠ 1970 := by
  refine ⟨rfl, rfl, by decide⟩

/-! ## C2 — failure handling of the Count Collector -/

/-- C2 (amended): only a line-counting-engine failure (`JSONDecodeError`)
is caught — logged and recorded as the empty record; a year-resolution
failure raised inside the same `try` block is NOT a `JSONDecodeError`, so
it propagates out of `get_repo_summary_file` (and aborts the run). -/
theorem collector_soft_fails_only_on_count_failure (env : Env) (source : ProcSource) :
    (env.countJson (locOf source) = none →
      get_repo_summary_file env source = .ok emptyRec)
    ∧ (∀ t e, env.countJson (locOf source) = some t →
        env.gitHistory (locOf source) = .error e →
        get_repo_summary_file env source = .error e) := by
  constructor
  · intro h
    simp [get_repo_summary_file, h]
  · intro t e hc hg
    simp [get_repo_summary_file, hc, get_repo_create_year, hg, exc_bind_error]

/-- Witness for C2's amended theorem: with a failing pygount parse the
collector stores the empty record; with a parseable count but an unreadable
git history it raises. -/
theorem collector_soft_fails_only_on_count_failure_witness :
    get_repo_summary_file envCountFail (ProcSource.path ["d"]) = .ok emptyRec
    ∧ get_repo_summary_file envGitFail (ProcSource.path ["x"]) =
        .error GitErr.invalidRepo :=
  ⟨(collector_soft_fails_only_on_count_failure envCountFail (ProcSource.path ["d"])).1 rfl,
   (collector_soft_fails_only_on_count_failure envGitFail (ProcSource.path ["x"])).2
     7 GitErr.invalidRepo rfl rfl⟩

/-- Counterexample to C2 as stated: a unit whose count parses but whose
year resolution fails makes the whole `get_summaries` run abort with the
uncaught git error — so not "no failure class aborts the run". -/
theorem collector_year_failure_aborts_run :
    get_summaries envGitFail ["x"] false = .error GitErr.invalidRepo := rfl

/-! ## C3 — what records enter the Summary -/

/-- Every record of every source of a summary satisfies `P`. -/
def AllRecs (P : Rec → Prop) (s : Summary) : Prop :=
  ∀ pr ∈ s, ∀ qr ∈ pr.2, P qr.2

theorem mem_insertRepo {repos : List (String × Rec)} {name : String} {r : Rec}
    {q : String × Rec} (h : q ∈ insertRepo repos name r) :
    q.2 = r ∨ q ∈ repos := by
  induction repos with
  | nil =>
      simp [insertRepo] at h
      simp [h]
  | cons hd tl ih =>
      obtain ⟨n0, r0⟩ := hd
      by_cases hn : n0 = name
      · simp [insertRepo, hn] at h
        rcases h with h | h
        · simp [h]
        · right; simp [h]
      · simp [insertRepo, hn] at h
        rcases h with h | h
        · right; simp [h]
        · rcases ih h with h2 | h2
          · exact Or.inl h2
          · right; simp [h2]

theorem allRecs_insertRec {P : Rec → Prop} {s : Summary} {key name : String} {r : Rec}
    (hs : AllRecs P s) (hr : P r) : AllRecs P (insertRec s key name r) := by
  induction s with
  | nil =>
      intro pr hpr qr hqr
      simp [insertRec] at hpr
      subst hpr
      simp [insertRepo] at hqr
      subst hqr
      exact hr
  | cons hd tl ih =>
      obtain ⟨k0, repos0⟩ := hd
      intro pr hpr qr hqr
      by_cases hk : k0 = key
      · simp [insertRec, hk] at hpr
        rcases hpr with hpr | hpr
        · subst hpr
          rcases mem_insertRepo hqr with h2 | h2
          · rw [h2]; exact hr
          · exact hs (k0, repos0) (by simp) qr h2
        · exact hs pr (by simp [hpr]) qr hqr
      · simp [insertRec, hk] at hpr
        rcases hpr with hpr | hpr
        · exact hs pr (by simp [hpr]) qr hqr
        · exact ih (fun pr2 hpr2 qr2 hqr2 => hs pr2 (by simp [hpr2]) qr2 hqr2)
            pr hpr qr hqr

/-- Every record produced by the Count Collector is either the empty dict or
has both `year` and `totalCodeCount` set. -/
theorem get_repo_summary_file_shape {env : Env} {ps : ProcSource} {r : Rec}
    (h : get_repo_summary_file env ps = .ok r) :
    r = emptyRec ∨ ∃ y t, r = ⟨some y, some t⟩ := by
  unfold get_repo_summary_file at h
  cases hc : env.countJson (locOf ps) with
  | none =>
      rw [hc] at h
      exact Or.inl (Except.ok.inj h).symm
  | some total =>
      rw [hc] at h
      cases hy : get_repo_create_year env ps with
      | error e => rw [hy] at h; cases h
      | ok y =>
          rw [hy] at h
          exact Or.inr ⟨y, total, (Except.ok.inj h).symm⟩

theorem processUnits_allRecs (P : Rec → Prop) {env : Env} {source : String}
    (hP : ∀ r, (r = emptyRec ∨ ∃ y t, r = Rec.mk (some y) (some t)) → P r) :
    ∀ (l : List ProcSource) (acc out : Summary),
      AllRecs P acc → processUnits env source l acc = .ok out → AllRecs P out := by
  intro l
  induction l with
  | nil =>
      intro acc out hacc h
      simp [processUnits] at h
      rwa [← h]
  | cons ps rest ih =>
      intro acc out hacc h
      unfold processUnits at h
      cases hg : get_repo_summary_file env ps with
      | error e => rw [hg] at h; cases h
      | ok r =>
          rw [hg] at h
          exact ih _ _ (allRecs_insertRec hacc (hP r (get_repo_summary_file_shape hg))) h

theorem summariesGo_allRecs (P : Rec → Prop) {env : Env} {flag : Bool}
    (hP : ∀ r, (r = emptyRec ∨ ∃ y t, r = Rec.mk (some y) (some t)) → P r) :
    ∀ (sources : List String) (acc out : Summary),
      AllRecs P acc → summariesGo env flag sources acc = .ok out → AllRecs P out := by
  intro sources
  induction sources with
  | nil =>
      intro acc out hacc h
      simp [summariesGo] at h
      rwa [← h]
  | cons src rest ih =>
      intro acc out hacc h
      unfold summariesGo at h
      cases hp : processUnits env src (resolveUnits env src flag) acc with
      | error e => rw [hp] at h; cases h
      | ok acc2 =>
          rw [hp] at h
          exact ih _ _ (processUnits_allRecs P hP _ _ _ hacc hp) h

/-- C3 (amended): every record stored in a successfully built Summary
either has its `year` field set (counting and year resolution both
succeeded) or is the empty dict `{}` with NO `year` key (counting failed) —
the code does store year-less empty records, it does not drop them.  A
record can never be stored after a year-resolution failure, because that
failure aborts the run before storage. -/
theorem summary_records_year_set_or_empty (env : Env) (sources : List String)
    (flag : Bool) (s : Summary) (h : get_summaries env sources flag = .ok s) :
    ∀ lbl repos, (lbl, repos) ∈ s → ∀ n r, (n, r) ∈ repos →
      r.year.isSome = true ∨ r = emptyRec := by
  intro lbl repos hmem n r hr
  have := summariesGo_allRecs (fun r => r.year.isSome = true ∨ r = emptyRec)
    (fun r h => by
      rcases h with h | ⟨y, t, h⟩
      · exact Or.inr h
      · subst h; exact Or.inl rfl)
    sources [] s (by intro pr hpr; cases hpr) h
  exact this (lbl, repos) hmem (n, r) hr

/-- Witness for C3's amended theorem at a concrete run. -/
theorem summary_records_year_set_or_empty_witness :
    (Rec.mk (some 1970) (some 7)).year.isSome = true
    ∨ Rec.mk (some 1970) (some 7) = emptyRec :=
  summary_records_year_set_or_empty envQuote ["\"r\""] false
    [("\"r\"", [("r", ⟨some 1970, some 7⟩)])] rfl
    "\"r\"" [("r", ⟨some 1970, some 7⟩)] (by simp)
    "r" ⟨some 1970, some 7⟩ (by simp)

/-- Counterexample to C3 as stated: when counting fails, `get_summaries`
stores the empty dict — a Count Record WITHOUT a `year` field — in the
Summary, rather than dropping the unit. -/
theorem summary_stores_empty_record_without_year :
    get_summaries envCountFail ["d"] false = .ok [("d", [("d", emptyRec)])]
    ∧ emptyRec.year = none :=
  ⟨rfl, rfl⟩

/-! ## C6 — the source_label key -/

theorem insertRec_keys {s : Summary} {key name : String} {r : Rec} :
    ∀ k ∈ (insertRec s key name r).map Prod.fst, k = key ∨ k ∈ s.map Prod.fst := by
  induction s with
  | nil =>
      intro k hk
      simp [insertRec] at hk
      exact Or.inl hk
  | cons hd tl ih =>
      obtain ⟨k0, repos0⟩ := hd
      intro k hk
      by_cases he : k0 = key
      · simp [insertRec, he] at hk
        rcases hk with hk | hk
        · subst hk; exact Or.inl rfl
        · right; simp [hk]
      · simp [insertRec, he] at hk
        rcases hk with hk | hk
        · right; simp [hk]
        · rcases ih k (by simpa using hk) with h2 | h2
          · exact Or.inl h2
          · right; simp [h2]

theorem processUnits_keys {env : Env} {source : String} :
    ∀ (l : List ProcSource) (acc out : Summary),
      processUnits env source l acc = .ok out →
      ∀ k ∈ out.map Prod.fst, k = removesuffix source "/" ∨ k ∈ acc.map Prod.fst := by
  intro l
  induction l with
  | nil =>
      intro acc out h k hk
      simp [processUnits] at h
      right
      rwa [h]
  | cons ps rest ih =>
      intro acc out h k hk
      unfold processUnits at h
      cases hg : get_repo_summary_file env ps with
      | error e => rw [hg] at h; cases h
      | ok r =>
          rw [hg] at h
          rcases ih _ _ h k hk with h2 | h2
          · exact Or.inl h2
          · exact insertRec_keys k h2

theorem summariesGo_keys {env : Env} {flag : Bool} :
    ∀ (sources : List String) (acc out : Summary),
      summariesGo env flag sources acc = .ok out →
      ∀ k ∈ out.map Prod.fst,
        (∃ src ∈ sources, k = removesuffix src "/") ∨ k ∈ acc.map Prod.fst := by
  intro sources
  induction sources with
  | nil =>
      intro acc out h k hk
      simp [summariesGo] at h
      right
      rwa [h]
  | cons src rest ih =>
      intro acc out h k hk
      unfold summariesGo at h
      cases hp : processUnits env src (resolveUnits env src flag) acc with
      | error e => rw [hp] at h; cases h
      | ok acc2 =>
          rw [hp] at h
          rcases ih _ _ h k hk with h2 | h2
          · rcases h2 with ⟨s0, hs0, hk0⟩
            exact Or.inl ⟨s0, by simp [hs0], hk0⟩
          · rcases processUnits_keys _ _ _ hp k h2 with h3 | h3
            · exact Or.inl ⟨src, by simp, h3⟩
            · exact Or.inr h3

/-- C6 (amended): the `source_label` key under which an input's records are
stored is the RAW input string with one trailing `/` removed
(`source.removesuffix("/")`); surrounding quote characters are stripped
only from the path used for directory resolution, not from the key. -/
theorem source_label_is_raw_input_without_trailing_sep (env : Env)
    (sources : List String) (flag : Bool) (s : Summary)
    (h : get_summaries env sources flag = .ok s) :
    ∀ k ∈ s.map Prod.fst, ∃ src ∈ sources, k = removesuffix src "/" := by
  intro k hk
  rcases summariesGo_keys sources [] s h k hk with h2 | h2
  · exact h2
  · cases h2

/-- Witness for C6's amended theorem at a concrete run: the stored key for
the quoted input equals the raw input with a trailing separator removed. -/
theorem source_label_is_raw_input_without_trailing_sep_witness :
    "\"r\"" = removesuffix "\"r\"" "/" := by
  obtain ⟨src, hsrc, hk⟩ :=
    source_label_is_raw_input_without_trailing_sep envQuote ["\"r\""] false
      [("\"r\"", [("r", ⟨some 1970, some 7⟩)])] rfl "\"r\"" (by simp)
  rw [List.mem_singleton] at hsrc
  subst hsrc
  exact hk

/-- Counterexample to C6 as stated: for the quoted input `"r"` the stored
key keeps the quotes (`source.removesuffix("/")` on the raw input), while
the claim's normalized form (quotes stripped, then trailing separator
removed) differs. -/
theorem source_label_keeps_quotes :
    get_summaries envQuote ["\"r\""] false =
      .ok [("\"r\"", [("r", ⟨some 1970, some 7⟩)])]
    ∧ "\"r\"" ≠ removesuffix (stripQuotes "\"r\"") "/" :=
  ⟨rfl, by decide⟩

/-! ## C7 — GitHub listing ordering -/

/-- Filtering commutes with `orderedInsert` when any two elements kept by
the filter are related (e.g. share the same sort key). -/
theorem filter_orderedInsert {α : Type} (r : α → α → Prop) [DecidableRel r]
    (p : α → Bool) (H : ∀ x y, p x = true → p y = true → r x y) (a : α) :
    ∀ l : List α, (List.orderedInsert r a l).filter p =
      if p a then a :: l.filter p else l.filter p := by
  intro l
  induction l with
  | nil =>
      simp [List.orderedInsert, List.filter_cons]
  | cons b t ih =>
      by_cases hr : r a b
      · simp [List.orderedInsert, hr, List.filter_cons]
      · simp only [List.orderedInsert, if_neg hr]
        rw [List.filter_cons]
        by_cases hpb : p b = true
        · have hpa : ¬ p a = true := fun hpa => hr (H a b hpa hpb)
          simp only [hpb, if_pos, ih, if_neg hpa]
          rw [List.filter_cons, if_pos hpb]
        · simp only [Bool.not_eq_true] at hpb
          simp only [hpb, Bool.false_eq_true, if_false, ih]
          rw [List.filter_cons]
          simp [hpb]

/-- Insertion sort is stable: the sublist of elements kept by a filter that
identifies one sort key is unchanged. -/
theorem filter_insertionSort {α : Type} (r : α → α → Prop) [DecidableRel r]
    (p : α → Bool) (H : ∀ x y, p x = true → p y = true → r x y) :
    ∀ l : List α, (List.insertionSort r l).filter p = l.filter p := by
  intro l
  induction l with
  | nil => rfl
  | cons a t ih =>
      rw [List.insertionSort, filter_orderedInsert r p H a, List.filter_cons]
      by_cases hpa : p a = true
      · simp [hpa, ih]
      · simp only [Bool.not_eq_true] at hpa
        simp [hpa, ih]

/-- C7: `get_all_github_repos` returns the listing's repositories sorted
ascending by the year hint (the leading `YYYY` component of `created_at`,
kept as a string — embedded in `rawGithubRepos`), and the sort is stable:
for each year hint, the subsequence of repositories carrying it equals the
subsequence in original listing order. -/
theorem github_repos_sorted_stable_by_year_hint (env : Env) (user : String) :
    List.Sorted (fun a b : Repository => a.year ≤ b.year)
      (get_all_github_repos env user)
    ∧ ∀ y : String,
        (get_all_github_repos env user).filter (fun rp => rp.year == y)
          = (rawGithubRepos env user).filter (fun rp => rp.year == y) := by
  constructor
  · haveI : IsTotal Repository (fun a b => a.year ≤ b.year) :=
      ⟨fun a b => le_total a.year b.year⟩
    haveI : IsTrans Repository (fun a b => a.year ≤ b.year) :=
      ⟨fun _ _ _ hab hbc => le_trans hab hbc⟩
    exact List.sorted_insertionSort _ _
  · intro y
    refine filter_insertionSort _ _ ?_ _
    intro x z hx hz
    have hx2 : x.year = y := by simpa using hx
    have hz2 : z.year = y := by simpa using hz
    rw [hx2, hz2]

/-! ## C8 — local directory resolution -/

/-- C8: when the (quote-stripped) input names an existing directory, with
subfolder mode on the resolver yields exactly one unit per immediate
subdirectory — located at the subdirectory's path and named after it, with
non-directory entries skipped — and with subfolder mode off the directory
itself is the single unit. -/
theorem local_dir_units_are_subdirectories (env : Env) (source : String)
    (h : env.isDir (mkPath (stripQuotes source)) = true) :
    resolveUnits env source true =
      ((env.entries (mkPath (stripQuotes source))).filter (fun e => e.2)).map
        (fun e => ProcSource.path (mkPath (stripQuotes source) ++ [e.1]))
    ∧ (resolveUnits env source true).map procName =
      ((env.entries (mkPath (stripQuotes source))).filter (fun e => e.2)).map Prod.fst
    ∧ (resolveUnits env source true).length =
      ((env.entries (mkPath (stripQuotes source))).filter (fun e => e.2)).length
    ∧ resolveUnits env source false = [ProcSource.path (mkPath (stripQuotes source))] := by
  have h1 : resolveUnits env source true =
      ((env.entries (mkPath (stripQuotes source))).filter (fun e => e.2)).map
        (fun e => ProcSource.path (mkPath (stripQuotes source) ++ [e.1])) := by
    simp [resolveUnits, h, pyGlobDirs]
  refine ⟨h1, ?_, ?_, ?_⟩
  · rw [h1, List.map_map]
    refine List.map_congr_left ?_
    intro e he
    simp [procName, pathName]
  · rw [h1, List.length_map]
  · simp [resolveUnits, h]

/-- Witness for C8 at a concrete directory with two subdirectories and one
plain file. -/
theorem local_dir_units_are_subdirectories_witness :
    resolveUnits envSubdirs "root" true =
      ((envSubdirs.entries (mkPath (stripQuotes "root"))).filter (fun e => e.2)).map
        (fun e => ProcSource.path (mkPath (stripQuotes "root") ++ [e.1]))
    ∧ (resolveUnits envSubdirs "root" true).map procName =
      ((envSubdirs.entries (mkPath (stripQuotes "root"))).filter (fun e => e.2)).map Prod.fst
    ∧ (resolveUnits envSubdirs "root" true).length =
      ((envSubdirs.entries (mkPath (stripQuotes "root"))).filter (fun e => e.2)).length
    ∧ resolveUnits envSubdirs "root" false = [ProcSource.path (mkPath (stripQuotes "root"))] :=
  local_dir_units_are_subdirectories envSubdirs "root" rfl

/-! ## C5 — grand totals -/

/-- Under well-formedness, the key-reading loop succeeds and produces
exactly the `(year, total)` pairs. -/
theorem recsData_eq_of_wf :
    ∀ l : List Rec, (∀ r ∈ l, r.year.isSome ∧ r.totalCodeCount.isSome) →
      recsData l = .ok (dataOf l) := by
  intro l
  induction l with
  | nil => intro hwf; rfl
  | cons r rest ih =>
      intro hwf
      obtain ⟨hy, ht⟩ := hwf r (by simp)
      obtain ⟨y, hy2⟩ := Option.isSome_iff_exists.mp hy
      obtain ⟨t, ht2⟩ := Option.isSome_iff_exists.mp ht
      have htail := ih (fun q hq => hwf q (by simp [hq]))
      simp [recsData, recYear, recTotal, hy2, ht2, htail, exc_bind_ok, exc_pure,
        dataOf, List.filterMap_cons]

theorem dataOf_fst_of_wf :
    ∀ l : List Rec, (∀ r ∈ l, r.year.isSome ∧ r.totalCodeCount.isSome) →
      (dataOf l).map Prod.fst = l.filterMap Rec.year := by
  intro l
  induction l with
  | nil => intro hwf; rfl
  | cons r rest ih =>
      intro hwf
      obtain ⟨hy, ht⟩ := hwf r (by simp)
      obtain ⟨y, hy2⟩ := Option.isSome_iff_exists.mp hy
      obtain ⟨t, ht2⟩ := Option.isSome_iff_exists.mp ht
      have htail := ih (fun q hq => hwf q (by simp [hq]))
      simp [dataOf, List.filterMap_cons, hy2, ht2] at htail ⊢
      simpa [dataOf] using htail

theorem dataOf_snd_of_wf :
    ∀ l : List Rec, (∀ r ∈ l, r.year.isSome ∧ r.totalCodeCount.isSome) →
      (dataOf l).map Prod.snd = l.filterMap Rec.totalCodeCount := by
  intro l
  induction l with
  | nil => intro hwf; rfl
  | cons r rest ih =>
      intro hwf
      obtain ⟨hy, ht⟩ := hwf r (by simp)
      obtain ⟨y, hy2⟩ := Option.isSome_iff_exists.mp hy
      obtain ⟨t, ht2⟩ := Option.isSome_iff_exists.mp ht
      have htail := ih (fun q hq => hwf q (by simp [hq]))
      simp [dataOf, List.filterMap_cons, hy2, ht2] at htail ⊢
      simpa [dataOf] using htail

theorem dataOf_length_of_wf :
    ∀ l : List Rec, (∀ r ∈ l, r.year.isSome ∧ r.totalCodeCount.isSome) →
      (dataOf l).length = l.length := by
  intro l
  induction l with
  | nil => intro hwf; rfl
  | cons r rest ih =>
      intro hwf
      obtain ⟨hy, ht⟩ := hwf r (by simp)
      obtain ⟨y, hy2⟩ := Option.isSome_iff_exists.mp hy
      obtain ⟨t, ht2⟩ := Option.isSome_iff_exists.mp ht
      have htail := ih (fun q hq => hwf q (by simp [hq]))
      simp [dataOf, List.filterMap_cons, hy2, ht2] at htail ⊢
      simpa [dataOf] using htail

/-- C5: on a Summary with at least one record, all records carrying both
keys, `get_summary_of_all` returns the sum of every record's
`totalCodeCount`, the number of records (zero-line ones included), and
`max(year) - min(year)` over the set of resolved years — which is 0 when
exactly one distinct year is present. -/
theorem totals_sum_count_and_year_span (s : Summary)
    (hne : flatRecs s ≠ [])
    (hwf : ∀ r ∈ flatRecs s, r.year.isSome ∧ r.totalCodeCount.isSome) :
    (yearsOfSummary s).dedup.max?.isSome = true
    ∧ (yearsOfSummary s).dedup.min?.isSome = true
    ∧ get_summary_of_all s =
        .ok ⟨(linesOfSummary s).sum, (flatRecs s).length,
             ((yearsOfSummary s).dedup.max?.getD 0) -
               ((yearsOfSummary s).dedup.min?.getD 0)⟩
    ∧ ((yearsOfSummary s).dedup.length = 1 →
        ((yearsOfSummary s).dedup.max?.getD 0) -
          ((yearsOfSummary s).dedup.min?.getD 0) = 0) := by
  have hdata := recsData_eq_of_wf (flatRecs s) hwf
  have hfst := dataOf_fst_of_wf (flatRecs s) hwf
  have hsnd := dataOf_snd_of_wf (flatRecs s) hwf
  have hlen := dataOf_length_of_wf (flatRecs s) hwf
  have hys : (yearsOfSummary s).dedup ≠ [] := by
    intro hempty
    have : yearsOfSummary s = [] := (List.dedup_eq_nil _).mp hempty
    rw [yearsOfSummary] at this
    cases hfr : flatRecs s with
    | nil => exact hne hfr
    | cons r rest =>
        obtain ⟨hy, _⟩ := hwf r (by simp [hfr])
        obtain ⟨y, hy2⟩ := Option.isSome_iff_exists.mp hy
        rw [hfr] at this
        simp [List.filterMap_cons, hy2] at this
  obtain ⟨a, t, hat⟩ := List.exists_cons_of_ne_nil hys
  refine ⟨?_, ?_, ?_, ?_⟩
  · rw [hat]; rfl
  · rw [hat]; rfl
  · unfold get_summary_of_all
    rw [hdata, exc_bind_ok]
    have hyears : ((dataOf (flatRecs s)).map Prod.fst).dedup = a :: t := by
      rw [hfst, ← yearsOfSummary, hat]
    rw [hyears]
    have hmax : (a :: t).max? = some (t.foldl max a) := rfl
    have hmin : (a :: t).min? = some (t.foldl min a) := rfl
    dsimp only
    rw [hmax, hmin, hsnd, hlen]
    rw [show (flatRecs s).filterMap Rec.totalCodeCount = linesOfSummary s from rfl]
    rw [hat]
    rfl
  · intro hlen1
    rw [hat] at hlen1
    simp at hlen1
    subst hlen1
    rw [hat]
    show a - a = 0
    omega

/-- Witness for C5 on Scenario A's summary (one source, two repositories,
years 2020/2021 with 500/300 lines): totals are 800 lines, 2 repositories,
a span of 1 year. -/
theorem totals_sum_count_and_year_span_witness :
    get_summary_of_all
        [("demo", [("a", ⟨some 2020, some 500⟩), ("b", ⟨some 2021, some 300⟩)])] =
      .ok ⟨800, 2, 1⟩ :=
  ((totals_sum_count_and_year_span
    [("demo", [("a", ⟨some 2020, some 500⟩), ("b", ⟨some 2021, some 300⟩)])]
    (by decide) (by decide)).2.2.1).trans (by rfl)

/-! ## C4 — the per-source series of the Pivot/Aggregator -/

/-- The sum of the counts recorded for key `y` (for an association list
with unique keys, the value at `y`, or 0 when absent). -/
def lookupCount (c : List (Int × Nat)) (y : Int) : Nat :=
  ((c.filter (fun z => z.1 = y)).map Prod.snd).sum

theorem counterAdd_fst (c : List (Int × Nat)) (y : Int) (n : Nat) :
    (counterAdd c y n).map Prod.fst =
      if y ∈ c.map Prod.fst then c.map Prod.fst else c.map Prod.fst ++ [y] := by
  induction c with
  | nil => simp [counterAdd]
  | cons hd tl ih =>
      obtain ⟨y0, n0⟩ := hd
      by_cases h0 : y0 = y
      · simp [counterAdd, h0]
      · simp only [counterAdd, if_neg h0, List.map_cons, ih]
        have : (y ∈ y0 :: tl.map Prod.fst) ↔ (y ∈ tl.map Prod.fst) := by
          simp [Ne.symm h0]
        by_cases hm : y ∈ tl.map Prod.fst
        · simp [hm, this]
        · simp [hm, this]

theorem lookupCount_nil (y : Int) : lookupCount [] y = 0 := rfl

theorem lookupCount_cons (p : Int × Nat) (c : List (Int × Nat)) (y : Int) :
    lookupCount (p :: c) y =
      (if p.1 = y then p.2 else 0) + lookupCount c y := by
  by_cases h : p.1 = y
  · simp [lookupCount, List.filter_cons, h]
  · simp [lookupCount, List.filter_cons, h]

theorem counterAdd_lookup (c : List (Int × Nat)) (y : Int) (n : Nat) (y' : Int) :
    lookupCount (counterAdd c y n) y' =
      lookupCount c y' + (if y' = y then n else 0) := by
  induction c with
  | nil =>
      by_cases h : y' = y
      · simp [counterAdd, lookupCount, List.filter_cons, h]
      · simp [counterAdd, lookupCount, List.filter_cons, h, Ne.symm h]
  | cons hd tl ih =>
      obtain ⟨y0, n0⟩ := hd
      by_cases h0 : y0 = y
      · subst h0
        by_cases h1 : y0 = y'
        · subst h1
          simp [counterAdd, lookupCount_cons]
          omega
        · simp [counterAdd, lookupCount_cons, h1, Ne.symm h1]
      · simp only [counterAdd, if_neg h0, lookupCount_cons, ih]
        omega

theorem foldl_counter_lookup :
    ∀ (l : List (Int × Nat)) (acc : List (Int × Nat)) (y : Int),
      lookupCount (l.foldl (fun c p => counterAdd c p.1 p.2) acc) y =
        lookupCount acc y + lookupCount l y := by
  intro l
  induction l with
  | nil => intro acc y; simp [lookupCount_nil]
  | cons p rest ih =>
      intro acc y
      simp only [List.foldl_cons, ih, counterAdd_lookup, lookupCount_cons]
      by_cases h : p.1 = y
      · simp [h]
        omega
      · simp [h]
        intro hc
        exact absurd hc.symm h

theorem foldl_counter_fst :
    ∀ (l : List (Int × Nat)) (acc : List (Int × Nat)),
      ((l.foldl (fun c p => counterAdd c p.1 p.2) acc).map Prod.fst) =
        (l.map Prod.fst).foldl
          (fun ks y => if y ∈ ks then ks else ks ++ [y]) (acc.map Prod.fst) := by
  intro l
  induction l with
  | nil => intro acc; rfl
  | cons p rest ih =>
      intro acc
      simp only [List.foldl_cons, List.map_cons, ih, counterAdd_fst]

theorem foldl_keys_nodup :
    ∀ (ys : List Int) (acc : List Int), acc.Nodup →
      (ys.foldl (fun ks y => if y ∈ ks then ks else ks ++ [y]) acc).Nodup := by
  intro ys
  induction ys with
  | nil => intro acc h; exact h
  | cons y rest ih =>
      intro acc h
      simp only [List.foldl_cons]
      by_cases hm : y ∈ acc
      · simp only [if_pos hm]
        exact ih acc h
      · simp only [if_neg hm]
        refine ih _ ?_
        simp [List.nodup_append, h, hm]

theorem lookupCount_eq_zero_of_not_mem {c : List (Int × Nat)} {y : Int}
    (h : y ∉ c.map Prod.fst) : lookupCount c y = 0 := by
  induction c with
  | nil => rfl
  | cons p rest ih =>
      simp only [List.map_cons, List.mem_cons] at h
      push_neg at h
      rw [lookupCount_cons, if_neg (fun he => h.1 he.symm), ih h.2]

theorem lookup_of_mem_nodup :
    ∀ (c : List (Int × Nat)), (c.map Prod.fst).Nodup →
      ∀ q ∈ c, lookupCount c q.1 = q.2 := by
  intro c
  induction c with
  | nil => intro _ q hq; cases hq
  | cons p rest ih =>
      intro hnd q hq
      simp only [List.map_cons, List.nodup_cons] at hnd
      rcases List.mem_cons.mp hq with hq | hq
      · subst hq
        rw [lookupCount_cons, if_pos rfl,
          lookupCount_eq_zero_of_not_mem hnd.1]
        omega
      · have hne : p.1 ≠ q.1 := by
          intro he
          exact hnd.1 (he ▸ List.mem_map_of_mem Prod.fst hq)
        rw [lookupCount_cons, if_neg hne, ih hnd.2 q hq]
        simp

/-- Under well-formedness the Counter loop succeeds and equals the pure
left fold over the `(year, total)` pairs. -/
theorem sourceCounterAux_eq_of_wf :
    ∀ (repos : List (String × Rec)) (c : List (Int × Nat)),
      (∀ pr ∈ repos, pr.2.year.isSome ∧ pr.2.totalCodeCount.isSome) →
      sourceCounterAux repos c =
        .ok ((pairsOf repos).foldl (fun c p => counterAdd c p.1 p.2) c) := by
  intro repos
  induction repos with
  | nil => intro c _; rfl
  | cons pr rest ih =>
      intro c hwf
      obtain ⟨hy, ht⟩ := hwf pr (by simp)
      obtain ⟨y, hy2⟩ := Option.isSome_iff_exists.mp hy
      obtain ⟨t, ht2⟩ := Option.isSome_iff_exists.mp ht
      have hpairs : pairsOf (pr :: rest) = (y, t) :: pairsOf rest := by
        simp [pairsOf, dataOf, List.filterMap_cons, hy2, ht2]
      rw [hpairs]
      simp only [sourceCounterAux, recYear, recTotal, hy2, ht2, exc_bind_ok,
        List.foldl_cons]
      exact ih _ (fun q hq => hwf q (by simp [hq]))

theorem seriesAux_eq_of_wf :
    ∀ s : Summary,
      (∀ pr ∈ s, ∀ qr ∈ pr.2, qr.2.year.isSome ∧ qr.2.totalCodeCount.isSome) →
      seriesAux s =
        .ok (s.map (fun pr => (pr.1, (counterOf (pairsOf pr.2)).map Prod.snd))) := by
  intro s
  induction s with
  | nil => intro _; rfl
  | cons pr rest ih =>
      intro hwf
      have hcounter := sourceCounterAux_eq_of_wf pr.2 []
        (fun qr hqr => hwf pr (by simp) qr hqr)
      have hrest := ih (fun pr2 hpr2 qr hqr => hwf pr2 (by simp [hpr2]) qr hqr)
      simp only [seriesAux, hcounter, hrest, exc_bind_ok, exc_pure, counterOf,
        List.map_cons]

theorem yearsOfRepos_eq_of_wf :
    ∀ (repos : List (String × Rec)),
      (∀ pr ∈ repos, pr.2.year.isSome) →
      yearsOfRepos repos = .ok ((repos.map Prod.snd).filterMap Rec.year) := by
  intro repos
  induction repos with
  | nil => intro _; rfl
  | cons pr rest ih =>
      intro hwf
      obtain ⟨y, hy2⟩ := Option.isSome_iff_exists.mp (hwf pr (by simp))
      have htail := ih (fun q hq => hwf q (by simp [hq]))
      simp [yearsOfRepos, recYear, hy2, htail, exc_bind_ok, exc_pure,
        List.filterMap_cons]

theorem allYearsAux_eq_of_wf :
    ∀ s : Summary,
      (∀ pr ∈ s, ∀ qr ∈ pr.2, qr.2.year.isSome) →
      allYearsAux s = .ok (yearsOfSummary s) := by
  intro s
  induction s with
  | nil => intro _; rfl
  | cons pr rest ih =>
      intro hwf
      have h1 := yearsOfRepos_eq_of_wf pr.2 (fun qr hqr => hwf pr (by simp) qr hqr)
      have h2 := ih (fun p hp qr hqr => hwf p (by simp [hp]) qr hqr)
      simp [allYearsAux, h1, h2, exc_bind_ok, exc_pure, yearsOfSummary, flatRecs,
        List.filterMap_append]

theorem allYears_eq_of_wf (s : Summary)
    (hwf : ∀ pr ∈ s, ∀ qr ∈ pr.2, qr.2.year.isSome) :
    allYears s = .ok ((yearsOfSummary s).dedup) := by
  simp [allYears, allYearsAux_eq_of_wf s hwf, exc_bind_ok, exc_pure]

/-- C4 (amended): for a Summary whose records all carry both keys, the
pivot succeeds, and for each source its series has exactly one entry per
distinct year among that source's repositories — each entry the sum of
`totalCodeCount` over the repositories of that source sharing the year —
but the entries appear in order of FIRST APPEARANCE of each year in the
source's repository dict (`Counter` insertion order), not in ascending
year order. -/
theorem per_source_series_sums_in_first_seen_order (s : Summary)
    (hwf : ∀ pr ∈ s, ∀ qr ∈ pr.2, qr.2.year.isSome ∧ qr.2.totalCodeCount.isSome) :
    get_code_per_year_source s =
        .ok ((yearsOfSummary s).dedup,
             s.map (fun pr => (pr.1, (counterOf (pairsOf pr.2)).map Prod.snd)))
    ∧ ∀ pr ∈ s,
        (counterOf (pairsOf pr.2)).map Prod.fst =
          keysInOrder ((pairsOf pr.2).map Prod.fst)
      ∧ ((counterOf (pairsOf pr.2)).map Prod.fst).Nodup
      ∧ ∀ q ∈ counterOf (pairsOf pr.2),
          q.2 = (((pairsOf pr.2).filter (fun z => z.1 = q.1)).map Prod.snd).sum := by
  have hys := allYears_eq_of_wf s (fun pr hpr qr hqr => (hwf pr hpr qr hqr).1)
  have hseries := seriesAux_eq_of_wf s hwf
  refine ⟨?_, ?_⟩
  · simp [get_code_per_year_source, hys, hseries, exc_bind_ok, exc_pure]
  · intro pr _
    have hfst : (counterOf (pairsOf pr.2)).map Prod.fst =
        keysInOrder ((pairsOf pr.2).map Prod.fst) := by
      rw [counterOf, foldl_counter_fst, keysInOrder]
      rfl
    have hnd : ((counterOf (pairsOf pr.2)).map Prod.fst).Nodup := by
      rw [hfst, keysInOrder]
      exact foldl_keys_nodup _ [] List.nodup_nil
    refine ⟨hfst, hnd, ?_⟩
    intro q hq
    have hv := lookup_of_mem_nodup (counterOf (pairsOf pr.2)) hnd q hq
    have hfold := foldl_counter_lookup (pairsOf pr.2) [] q.1
    rw [counterOf] at hv
    rw [hfold] at hv
    simp only [lookupCount_nil, Nat.zero_add] at hv
    rw [← hv]
    rfl

/-- Witness for C4's amended theorem on a two-repository source whose years
appear in the order 2021, 2020: the pivot emits the series `[10, 5]` and
the counter keys are the years in first-appearance order. -/
theorem per_source_series_sums_in_first_seen_order_witness :
    get_code_per_year_source
        [("s", [("a", ⟨some 2021, some 10⟩), ("b", ⟨some 2020, some 5⟩)])] =
      .ok ([2021, 2020], [("s", [10, 5])])
    ∧ (counterOf (pairsOf
        [("a", (⟨some 2021, some 10⟩ : Rec)), ("b", ⟨some 2020, some 5⟩)])).map Prod.fst =
      keysInOrder ((pairsOf
        [("a", (⟨some 2021, some 10⟩ : Rec)), ("b", ⟨some 2020, some 5⟩)]).map Prod.fst) := by
  have h := per_source_series_sums_in_first_seen_order
    [("s", [("a", ⟨some 2021, some 10⟩), ("b", ⟨some 2020, some 5⟩)])] (by decide)
  exact ⟨h.1.trans (by rfl),
    (h.2 ("s", [("a", ⟨some 2021, some 10⟩), ("b", ⟨some 2020, some 5⟩)]) (by simp)).1⟩

/-- Counterexample to C4 as stated: with the years encountered in the
order 2021 then 2020, the emitted series is `[10, 5]` (first-seen order),
while the spec-modelled ascending-year series is `[5, 10]`. -/
theorem per_source_series_not_ascending :
    get_code_per_year_source
        [("s", [("a", ⟨some 2021, some 10⟩), ("b", ⟨some 2020, some 5⟩)])] =
      .ok ([2021, 2020], [("s", [10, 5])])
    ∧ ascendingSeriesOf [("a", ⟨some 2021, some 10⟩), ("b", ⟨some 2020, some 5⟩)] = [5, 10]
    ∧ ([10, 5] : List Nat) ≠ [5, 10] :=
  ⟨rfl, by decide, by decide⟩

/-! ## C10 — an empty record poisons every consumer -/

theorem sortReposByYear_error {repos : List (String × Rec)} {n : String} {r : Rec}
    (hr : (n, r) ∈ repos) (hy : r.year = none) :
    sortReposByYear repos = .error () := by
  unfold sortReposByYear
  rw [if_neg]
  intro hall
  have := (List.all_eq_true.mp hall) (n, r) hr
  simp [hy] at this

theorem yearsOfRepos_error {repos : List (String × Rec)} {n : String} {r : Rec}
    (hr : (n, r) ∈ repos) (hy : r.year = none) :
    yearsOfRepos repos = .error () := by
  induction repos with
  | nil => cases hr
  | cons pr rest ih =>
      rcases List.mem_cons.mp hr with h | h
      · rw [yearsOfRepos, ← h]
        simp [recYear, hy, exc_bind_error]
      · rw [yearsOfRepos]
        cases hhd : recYear pr.2 with
        | error e => simp [exc_bind_error]
        | ok y =>
            rw [exc_bind_ok]
            rw [ih h]
            rfl

theorem allYearsAux_error {s : Summary} {lbl : String} {repos : List (String × Rec)}
    (hs : (lbl, repos) ∈ s) (herr : yearsOfRepos repos = .error ()) :
    allYearsAux s = .error () := by
  induction s with
  | nil => cases hs
  | cons pr rest ih =>
      rcases List.mem_cons.mp hs with h | h
      · rw [allYearsAux, ← h]
        simp [herr, exc_bind_error]
      · rw [allYearsAux]
        cases hhd : yearsOfRepos pr.2 with
        | error e => simp [exc_bind_error]
        | ok ys =>
            rw [exc_bind_ok, ih h]
            rfl

theorem recsData_error {l : List Rec} {r : Rec}
    (hr : r ∈ l) (hy : r.year = none) :
    recsData l = .error () := by
  induction l with
  | nil => cases hr
  | cons r0 rest ih =>
      rcases List.mem_cons.mp hr with h | h
      · rw [recsData, ← h]
        simp [recYear, hy, exc_bind_error]
      · rw [recsData]
        cases h0 : recYear r0 with
        | error e => simp [exc_bind_error]
        | ok y =>
            rw [exc_bind_ok]
            cases h1 : recTotal r0 with
            | error e => simp [exc_bind_error]
            | ok t =>
                rw [exc_bind_ok, ih h]
                rfl

theorem jsonBody_error {s : Summary} {lbl : String} {repos : List (String × Rec)}
    (hs : (lbl, repos) ∈ s) (herr : sortReposByYear repos = .error ()) :
    ∀ acc, jsonBody s acc = .error () := by
  induction s with
  | nil => cases hs
  | cons pr rest ih =>
      intro acc
      rcases List.mem_cons.mp hs with h | h
      · rw [jsonBody, ← h]
        simp [herr, exc_bind_error]
      · rw [jsonBody]
        cases h0 : sortReposByYear pr.2 with
        | error e => simp [exc_bind_error]
        | ok sorted =>
            rw [exc_bind_ok]
            cases h1 : rowsOfSorted sorted with
            | error e => simp [exc_bind_error]
            | ok rows =>
                rw [exc_bind_ok]
                exact ih h _

theorem markdownBody_error {s : Summary} {lbl : String} {repos : List (String × Rec)}
    (render : List Row → String)
    (hs : (lbl, repos) ∈ s) (herr : sortReposByYear repos = .error ()) :
    ∀ acc, markdownBody render s acc = .error () := by
  induction s with
  | nil => cases hs
  | cons pr rest ih =>
      intro acc
      rcases List.mem_cons.mp hs with h | h
      · rw [markdownBody, ← h]
        simp [herr, exc_bind_error]
      · rw [markdownBody]
        cases h0 : sortReposByYear pr.2 with
        | error e => simp [exc_bind_error]
        | ok sorted =>
            rw [exc_bind_ok]
            cases h1 : rowsOfSorted sorted with
            | error e => simp [exc_bind_error]
            | ok rows =>
                rw [exc_bind_ok]
                exact ih h _

/-- C10: if any record of any source is the year-less empty dict (stored
when counting failed), then the per-source sort raises a missing-key error,
and so do the pivot, the grand totals, the JSON presenter and the markdown
presenter for the WHOLE summary — no remaining repository is rendered.
(`print_output_as_rich` performs the same `sorted(..., key=x[1]["year"])`
call, covered by the first conjunct.) -/
theorem missing_year_key_poisons_all_consumers (render : List Row → String)
    (s : Summary) (lbl n : String) (repos : List (String × Rec)) (r : Rec)
    (hs : (lbl, repos) ∈ s) (hr : (n, r) ∈ repos) (hy : r.year = none) :
    sortReposByYear repos = .error ()
    ∧ get_code_per_year_source s = .error ()
    ∧ get_summary_of_all s = .error ()
    ∧ output_as_json s = .error ()
    ∧ output_as_markdown render s = .error () := by
  have hsort := sortReposByYear_error hr hy
  have hyears := yearsOfRepos_error hr hy
  have hflat : r ∈ flatRecs s := by
    simp only [flatRecs, List.mem_flatten, List.mem_map]
    exact ⟨repos.map Prod.snd, ⟨(lbl, repos), hs, rfl⟩,
      List.mem_map_of_mem Prod.snd hr⟩
  refine ⟨hsort, ?_, ?_, ?_, ?_⟩
  · rw [get_code_per_year_source, allYears, allYearsAux_error hs hyears]
    rfl
  · rw [get_summary_of_all, recsData_error hflat hy]
    rfl
  · rw [output_as_json, jsonBody_error hs hsort []]
    rfl
  · rw [output_as_markdown, markdownBody_error render hs hsort ""]
    rfl

/-- Witness for C10 on a source holding one good record and one empty
record. -/
theorem missing_year_key_poisons_all_consumers_witness :
    sortReposByYear [("good", ⟨some 2020, some 5⟩), ("bad", emptyRec)] = .error ()
    ∧ get_code_per_year_source
        [("src", [("good", ⟨some 2020, some 5⟩), ("bad", emptyRec)])] = .error ()
    ∧ get_summary_of_all
        [("src", [("good", ⟨some 2020, some 5⟩), ("bad", emptyRec)])] = .error ()
    ∧ output_as_json
        [("src", [("good", ⟨some 2020, some 5⟩), ("bad", emptyRec)])] = .error ()
    ∧ output_as_markdown (fun _ => "")
        [("src", [("good", ⟨some 2020, some 5⟩), ("bad", emptyRec)])] = .error () :=
  missing_year_key_poisons_all_consumers (fun _ => "")
    [("src", [("good", ⟨some 2020, some 5⟩), ("bad", emptyRec)])]
    "src" "bad" [("good", ⟨some 2020, some 5⟩), ("bad", emptyRec)] emptyRec
    (by simp) (by simp) rfl

/-! ## C9 — JSON presenter on a one-source, one-repository Summary -/

/-- Reassociating the constant prefix of the chart: everything before the
x-axis data regroups into the fence/header (which contains the title line)
followed by the x-axis label. -/
theorem chart_prefix_regroup (X : String) :
    "\n```mermaid\nxychart-beta\n      title \"" ++ ("Line of codes per year" ++
      ("\"\n      x-axis \"" ++ ("Year" ++ ("\" " ++ X))))
    = "\n```mermaid\nxychart-beta\n      title \"Line of codes per year\"\n" ++
      ("      x-axis \"Year\" " ++ X) := by
  simp [← String.append_assoc]

/-- The single-source chart decomposes as the fence/header (with title
line) followed by the x-axis and bar data. -/
theorem chartOfSingle_decomposition (src : String) (y : Int) (t : Nat) :
    chartOfSingle src y t =
      "\n```mermaid\nxychart-beta\n      title \"Line of codes per year\"\n" ++
        ("      x-axis \"Year\" " ++ (jsonDumpInts [y] ++ ("\n" ++
          (("      bar \"" ++ (lastSegment src ++ ("\" " ++ jsonDumpNats [t]))) ++
            "\n```")))) := by
  rw [← chart_prefix_regroup]
  show ("\n```mermaid\nxychart-beta\n      title \"" ++ "Line of codes per year" ++
      "\"\n      x-axis \"" ++ "Year" ++ "\" " ++ jsonDumpInts [y] ++ "\n") ++
      String.intercalate "\n"
        [("      bar \"" ++ lastSegment src ++ "\" " ++ jsonDumpNats [t])] ++ "\n```"
    = _
  rw [show String.intercalate "\n"
      [("      bar \"" ++ lastSegment src ++ "\" " ++ jsonDumpNats [t])]
    = ("      bar \"" ++ lastSegment src ++ "\" " ++ jsonDumpNats [t]) from rfl]
  simp only [← String.append_assoc]

/-- C9 (amended): on a Summary with exactly one source and one repository
whose record carries both keys, and whose source label's trailing path
segment is not the literal string `b64_mermaid_chart`, `output_as_json`
yields exactly the source-segment key with the single-row list plus the
separate `b64_mermaid_chart` key holding the base64 of the chart, whose
decoded value begins with the chart grammar's fenced header containing the
title line. -/
theorem json_single_source_shape (src name : String) (y : Int) (t : Nat)
    (h : lastSegment src ≠ "b64_mermaid_chart") :
    output_as_json [(src, [(name, ⟨some y, some t⟩)])] =
      .ok [(lastSegment src, JVal.rows [⟨name, y, t⟩]),
           ("b64_mermaid_chart", JVal.str (b64encode (chartOfSingle src y t)))]
    ∧ chartOfSingle src y t =
      "\n```mermaid\nxychart-beta\n      title \"Line of codes per year\"\n" ++
        ("      x-axis \"Year\" " ++ (jsonDumpInts [y] ++ ("\n" ++
          (("      bar \"" ++ (lastSegment src ++ ("\" " ++ jsonDumpNats [t]))) ++
            "\n```")))) := by
  refine ⟨?_, chartOfSingle_decomposition src y t⟩
  have hsort : sortReposByYear [(name, (⟨some y, some t⟩ : Rec))] =
      .ok [(name, ⟨some y, some t⟩)] := by
    simp [sortReposByYear, List.insertionSort, List.orderedInsert]
  have hrows : rowsOfSorted [(name, (⟨some y, some t⟩ : Rec))] =
      .ok [⟨name, y, t⟩] := by
    simp [rowsOfSorted, recYear, recTotal, exc_bind_ok, exc_pure]
  have hbody : jsonBody [(src, [(name, ⟨some y, some t⟩)])] [] =
      .ok [(lastSegment src, JVal.rows [⟨name, y, t⟩])] := by
    simp [jsonBody, hsort, hrows, exc_bind_ok, jdictInsert]
  have hyears : allYears [(src, [(name, (⟨some y, some t⟩ : Rec))])] = .ok [y] := by
    simp [allYears, allYearsAux, yearsOfRepos, recYear, exc_bind_ok, exc_pure]
  have hseries : seriesAux [(src, [(name, (⟨some y, some t⟩ : Rec))])] =
      .ok [(src, [t])] := by
    simp [seriesAux, sourceCounterAux, recYear, recTotal, counterAdd,
      exc_bind_ok, exc_pure]
  have hpivot : get_code_per_year_source [(src, [(name, ⟨some y, some t⟩)])] =
      .ok ([y], [(src, [t])]) := by
    simp [get_code_per_year_source, hyears, hseries, exc_bind_ok, exc_pure]
  rw [output_as_json, hbody, exc_bind_ok, hpivot, exc_bind_ok]
  dsimp only
  rw [show jdictInsert [(lastSegment src, JVal.rows [⟨name, y, t⟩])]
      "b64_mermaid_chart"
      (JVal.str (b64encode (code_per_year_to_mermaid_chart [y] [(src, [t])]
        "Line of codes per year" "Year")))
    = [(lastSegment src, JVal.rows [⟨name, y, t⟩]),
       ("b64_mermaid_chart", JVal.str (b64encode (code_per_year_to_mermaid_chart
         [y] [(src, [t])] "Line of codes per year" "Year")))] from by
    simp [jdictInsert, h]]
  rfl

/-- Witness for C9's amended theorem at a concrete input. -/
theorem json_single_source_shape_witness :
    output_as_json [("proj/demo", [("repo1", ⟨some 2020, some 7⟩)])] =
      .ok [(lastSegment "proj/demo", JVal.rows [⟨"repo1", 2020, 7⟩]),
           ("b64_mermaid_chart", JVal.str (b64encode (chartOfSingle "proj/demo" 2020 7)))]
    ∧ chartOfSingle "proj/demo" 2020 7 =
      "\n```mermaid\nxychart-beta\n      title \"Line of codes per year\"\n" ++
        ("      x-axis \"Year\" " ++ (jsonDumpInts [2020] ++ ("\n" ++
          (("      bar \"" ++ (lastSegment "proj/demo" ++ ("\" " ++ jsonDumpNats [7]))) ++
            "\n```")))) :=
  json_single_source_shape "proj/demo" "repo1" 2020 7 (by decide)

/-- Counterexample to C9 as stated: when the source's trailing path segment
is itself `b64_mermaid_chart`, the chart entry overwrites the source's row
list, leaving a single top-level key whose value is the base64 string, not
a row list. -/
theorem json_single_source_chart_key_collision :
    output_as_json [("b64_mermaid_chart", [("repo1", ⟨some 2020, some 7⟩)])] =
      .ok [("b64_mermaid_chart",
            JVal.str (b64encode (chartOfSingle "b64_mermaid_chart" 2020 7)))]
    ∧ lastSegment "b64_mermaid_chart" = "b64_mermaid_chart"
    ∧ JVal.str (b64encode (chartOfSingle "b64_mermaid_chart" 2020 7)) ≠
        JVal.rows [⟨"repo1", 2020, 7⟩] := by
  refine ⟨rfl, rfl, ?_⟩
  intro hcontr
  cases hcontr

end CountCodeLines
